import Mathlib

/-!
Shallow embedding of `facebook_quantifier.py` (class `FacebookQuantifier`):
the extraction and normalization engine that turns a Facebook data-export
archive into per-activity lists of calendar dates.

Python values parsed from JSON are modelled by the inductive type `Json`;
Python exceptions are modelled by `Except String`; `datetime.fromtimestamp(t).date()`
is modelled by converting the epoch timestamp to a civil calendar date
(`fromtimestampDate`).  Python `dict`s appearing in parsed JSON are modelled as
association lists in insertion order; the dynamically created instance
attributes of the `FacebookQuantifier` object are modelled by the function
type `Attrs`.
-/

namespace FBQ

/-- A civil calendar date, the result of `datetime.date`. -/
structure Date where
  year : Int
  month : Nat
  day : Nat
deriving DecidableEq, Repr

/-- Convert a count of days since the Unix epoch to a civil calendar date
(standard civil-from-days algorithm); models `datetime.fromtimestamp(·).date()`
at day granularity. -/
def civilFromDays (z0 : Int) : Date :=
  let z := z0 + 719468
  let era : Int := z.fdiv 146097
  let doe : Nat := (z - era * 146097).toNat
  let yoe : Nat := (doe - doe / 1460 + doe / 36524 - doe / 146096) / 365
  let y : Int := (yoe : Int) + era * 400
  let doy : Nat := doe - (365 * yoe + yoe / 4 - yoe / 100)
  let mp : Nat := (5 * doy + 2) / 153
  let d : Nat := doy - (153 * mp + 2) / 5 + 1
  let m : Nat := if mp < 10 then mp + 3 else mp - 9
  { year := y + (if m ≤ 2 then 1 else 0), month := m, day := d }

/-- `datetime.fromtimestamp(ts).date()` for an epoch timestamp in seconds. -/
def fromtimestampDate (ts : Int) : Date :=
  civilFromDays (ts.fdiv 86400)

/-- Parsed JSON values (`json.load` results). -/
inductive Json where
  | null : Json
  | num : Int → Json
  | str : String → Json
  | arr : List Json → Json
  | obj : List (String × Json) → Json
deriving Repr

mutual

/-- Decidable equality for `Json`. -/
def Json.beq : Json → Json → Bool
  | .null, .null => true
  | .num a, .num b => a == b
  | .str a, .str b => a == b
  | .arr a, .arr b => Json.beqList a b
  | .obj a, .obj b => Json.beqFields a b
  | _, _ => false

/-- Decidable equality for lists of `Json`. -/
def Json.beqList : List Json → List Json → Bool
  | [], [] => true
  | a :: as, b :: bs => Json.beq a b && Json.beqList as bs
  | _, _ => false

/-- Decidable equality for `Json` object fields. -/
def Json.beqFields : List (String × Json) → List (String × Json) → Bool
  | [], [] => true
  | (k, v) :: as, (k', v') :: bs => k == k' && Json.beq v v' && Json.beqFields as bs
  | _, _ => false

end

mutual

theorem Json.beq_iff : ∀ a b : Json, Json.beq a b = true ↔ a = b
  | .null, .null => by simp [Json.beq]
  | .num a, .num b => by simp [Json.beq]
  | .str a, .str b => by simp [Json.beq]
  | .arr a, .arr b => by
      simpa [Json.beq] using Json.beqList_iff a b
  | .obj a, .obj b => by
      simpa [Json.beq] using Json.beqFields_iff a b
  | .null, .num _ | .null, .str _ | .null, .arr _ | .null, .obj _
  | .num _, .null | .num _, .str _ | .num _, .arr _ | .num _, .obj _
  | .str _, .null | .str _, .num _ | .str _, .arr _ | .str _, .obj _
  | .arr _, .null | .arr _, .num _ | .arr _, .str _ | .arr _, .obj _
  | .obj _, .null | .obj _, .num _ | .obj _, .str _ | .obj _, .arr _ => by
      simp [Json.beq]

theorem Json.beqList_iff : ∀ a b : List Json, Json.beqList a b = true ↔ a = b
  | [], [] => by simp [Json.beqList]
  | a :: as, b :: bs => by
      simp [Json.beqList, Json.beq_iff a b, Json.beqList_iff as bs]
  | [], _ :: _ => by simp [Json.beqList]
  | _ :: _, [] => by simp [Json.beqList]

theorem Json.beqFields_iff :
    ∀ a b : List (String × Json), Json.beqFields a b = true ↔ a = b
  | [], [] => by simp [Json.beqFields]
  | (k, v) :: as, (k', v') :: bs => by
      simp [Json.beqFields, Json.beq_iff v v', Json.beqFields_iff as bs,
        and_assoc, Prod.ext_iff]
  | [], _ :: _ => by simp [Json.beqFields]
  | _ :: _, [] => by simp [Json.beqFields]

end

instance : DecidableEq Json := fun a b =>
  decidable_of_iff (Json.beq a b = true) (Json.beq_iff a b)

/-- Python truthiness of a parsed JSON value (`bool(x)`). -/
def Json.isTruthy : Json → Bool
  | .null => false
  | .num n => n != 0
  | .str s => !s.isEmpty
  | .arr l => !l.isEmpty
  | .obj l => !l.isEmpty

/-- Lookup in an association list by key (Python `dict` access). -/
def lookupKey {α : Type} : List (String × α) → String → Option α
  | [], _ => none
  | (k', v) :: rest, k => if k' = k then some v else lookupKey rest k

/-- Does the list `s` start with the list `pat`? -/
def listStartsWith : List Char → List Char → Bool
  | [], _ => true
  | _ :: _, [] => false
  | p :: ps, c :: cs => p == c && listStartsWith ps cs

/-- Is `pat` a contiguous sublist of `s`? -/
def listInfix (pat s : List Char) : Bool :=
  match s with
  | [] => listStartsWith pat []
  | _ :: rest => listStartsWith pat s || listInfix pat rest

/-- Python `in` for strings: `pat in s` is contiguous-substring containment. -/
def strContains (s pat : String) : Bool :=
  listInfix pat.data s.data

/-- Python subscript `j[k]` with a string key: a `KeyError`/`TypeError` is an
`Except.error`. -/
def getItem (j : Json) (k : String) : Except String Json :=
  match j with
  | .obj fields =>
      match lookupKey fields k with
      | some v => .ok v
      | none => .error ("KeyError: " ++ k)
  | .str _ => .error "TypeError: string indices must be integers"
  | .arr _ => .error "TypeError: list indices must be integers"
  | _ => .error "TypeError: object is not subscriptable"

/-- Python iteration `for x in j`: lists yield elements, dicts yield keys,
strings yield one-character strings, other values raise `TypeError`. -/
def pyIter : Json → Except String (List Json)
  | .arr l => .ok l
  | .obj fields => .ok (fields.map fun p => Json.str p.1)
  | .str s => .ok (s.data.map fun c => Json.str (String.singleton c))
  | .num _ => .error "TypeError: int object is not iterable"
  | .null => .error "TypeError: NoneType object is not iterable"

/-- Python `j == s` for a string literal `s`. -/
def jsonEqStr (j : Json) (s : String) : Bool :=
  match j with
  | .str t => t == s
  | _ => false

/-- Python `json_file.get(k)` truthiness test used for the top-level key
fallbacks (`None` when the key is absent is falsy). -/
def truthyGet (fields : List (String × Json)) (k : String) : Bool :=
  match lookupKey fields k with
  | some v => v.isTruthy
  | none => false

/-! ### `FacebookQuantifier.get_timestamps` -/

/-- One step of the per-event scan
`... for item in value if timestr in item` followed by
`datetime.fromtimestamp(item[timestr]).date()`:
`some date` when the item is a mapping holding the timestamp field,
`none` when the filter `timestr in item` rejects the item, and an error when
Python would raise (`in` on a non-container, subscripting a string/list with a
string key, or `fromtimestamp` of a non-number). -/
def scanItem (timestr : String) (item : Json) : Except String (Option Date) :=
  match item with
  | .obj fields =>
      match lookupKey fields timestr with
      | some (.num ts) => .ok (some (fromtimestampDate ts))
      | some _ => .error "TypeError: fromtimestamp requires a number"
      | none => .ok none
  | .str s =>
      if strContains s timestr then .error "TypeError: string indices must be integers"
      else .ok none
  | .arr elems =>
      if elems.any (fun e => match e with | .str t => t == timestr | _ => false) then
        .error "TypeError: list indices must be integers"
      else .ok none
  | .num _ => .error "TypeError: argument of type int is not iterable"
  | .null => .error "TypeError: argument of type NoneType is not iterable"

/-- Scan a list of items (`for item in value ...`), in order. -/
def scanItems (timestr : String) : List Json → Except String (List Date)
  | [] => .ok []
  | item :: rest =>
      match scanItem timestr item with
      | .error e => .error e
      | .ok d? =>
          match scanItems timestr rest with
          | .error e => .error e
          | .ok ds =>
              match d? with
              | some d => .ok (d :: ds)
              | none => .ok ds

/-- Scan one dictionary value (`for item in value ...`). -/
def scanValue (timestr : String) (v : Json) : Except String (List Date) :=
  match pyIter v with
  | .error e => .error e
  | .ok items => scanItems timestr items

/-- Tier 1 of `get_timestamps`: the shallow `dict[str, list[dict[str, int]]]`
scan `for value in json_file.values() for item in value if timestr in item`. -/
def tier1 (fields : List (String × Json)) (timestr : String) :
    Except String (List Date) :=
  match fields with
  | [] => .ok []
  | (_, v) :: rest =>
      match scanValue timestr v with
      | .error e => .error e
      | .ok ds =>
          match tier1 rest timestr with
          | .error e => .error e
          | .ok ds' => .ok (ds ++ ds')

/-- Tier 2 of `get_timestamps`: the nested
`dict[str, dict[str, list[dict[str, int]]]]` scan
`for key in json_file for inner_key in json_file.get(key).values() ...`.
A value without `.values()` (e.g. a list) raises `AttributeError`. -/
def tier2 (fields : List (String × Json)) (timestr : String) :
    Except String (List Date) :=
  match fields with
  | [] => .ok []
  | (_, v) :: rest =>
      match v with
      | .obj innerFields =>
          match tier1 innerFields timestr with
          | .error e => .error e
          | .ok ds =>
              match tier2 rest timestr with
              | .error e => .error e
              | .ok ds' => .ok (ds ++ ds')
      | _ => .error "AttributeError: object has no attribute values"

/-- `FacebookQuantifier.get_timestamps`: try the shallow scan; if it produced
no timestamps, try the nested scan; if that still produced no timestamps,
log and return `None` (modelled as `Option.none`). -/
def get_timestamps (json_file : Json) (timestr : String) :
    Except String (Option (List Date)) :=
  match json_file with
  | .obj fields =>
      match tier1 fields timestr with
      | .error e => .error e
      | .ok ts1 =>
          match (if ts1.isEmpty then tier2 fields timestr else .ok ts1) with
          | .error e => .error e
          | .ok ts => if ts.isEmpty then .ok none else .ok (some ts)
  | _ => .error "AttributeError: object has no attribute values"

/-! ### `FacebookQuantifier.get_own_posts` -/

mutual

/-- Python `repr` of a parsed JSON value (as it appears inside
`str(item.values())`). -/
def Json.pyRepr : Json → String
  | .null => "None"
  | .num n => toString n
  | .str s => "\x27" ++ s ++ "\x27"
  | .arr l => "[" ++ ", ".intercalate (Json.pyReprList l) ++ "]"
  | .obj fields => "\x7b" ++ ", ".intercalate (Json.pyReprFields fields) ++ "\x7d"

/-- `repr` of each element of a JSON array. -/
def Json.pyReprList : List Json → List String
  | [] => []
  | j :: rest => Json.pyRepr j :: Json.pyReprList rest

/-- `repr` of each `key: value` pair of a JSON object. -/
def Json.pyReprFields : List (String × Json) → List String
  | [] => []
  | (k, v) :: rest => ("\x27" ++ k ++ "\x27: " ++ Json.pyRepr v) :: Json.pyReprFields rest

end

/-- Python `str(item.values())` for a post entry: the flattened textual
representation of the entry's field values (`AttributeError` when the entry is
not a mapping). -/
def itemValuesStr (item : Json) : Except String String :=
  match item with
  | .obj fields =>
      .ok ("dict_values([" ++
        ", ".intercalate (Json.pyReprList (fields.map Prod.snd)) ++ "])")
  | _ => .error "AttributeError: object has no attribute values"

/-- `datetime.fromtimestamp(item["timestamp"]).date()` for a post entry. -/
def itemTimestamp (item : Json) : Except String Date :=
  match item with
  | .obj fields =>
      match lookupKey fields "timestamp" with
      | some (.num ts) => .ok (fromtimestampDate ts)
      | some _ => .error "TypeError: fromtimestamp requires a number"
      | none => .error "KeyError: timestamp"
  | .str _ => .error "TypeError: string indices must be integers"
  | .arr _ => .error "TypeError: list indices must be integers"
  | _ => .error "TypeError: object is not subscriptable"

/-- The comprehension for `posts["own_posts_all"]`: one date per entry. -/
def allPass : List Json → Except String (List Date)
  | [] => .ok []
  | item :: rest =>
      match itemTimestamp item with
      | .error e => .error e
      | .ok d =>
          match allPass rest with
          | .error e => .error e
          | .ok ds => .ok (d :: ds)

/-- A guarded comprehension
`[fromtimestamp(item["timestamp"]).date() for item in json_file if p(str(item.values()))]`:
the common shape of the media / text-only / links comprehensions, which
differ only in the marker test `p` applied to the flattened values string. -/
def ownPostsPass (p : String → Bool) : List Json → Except String (List Date)
  | [] => .ok []
  | item :: rest =>
      match itemValuesStr item with
      | .error e => .error e
      | .ok s =>
          if p s then
            match itemTimestamp item with
            | .error e => .error e
            | .ok d =>
                match ownPostsPass p rest with
                | .error e => .error e
                | .ok ds => .ok (d :: ds)
          else ownPostsPass p rest

/-- Marker test for `posts["own_posts_media"]`: `"media" in str(item.values())`. -/
def mediaPred (s : String) : Bool := strContains s "media"

/-- Marker test for `posts["own_posts_text_only"]`:
`"external_context" not in s` and `"media" not in s`. -/
def textOnlyPred (s : String) : Bool :=
  !strContains s "external_context" && !strContains s "media"

/-- Marker test for `posts["own_posts_links"]`:
`"external_context" in s` and `"media" not in s`. -/
def linksPred (s : String) : Bool :=
  strContains s "external_context" && !strContains s "media"

/-- The comprehension for `posts["own_posts_media"]`. -/
def mediaPass : List Json → Except String (List Date) := ownPostsPass mediaPred

/-- The comprehension for `posts["own_posts_text_only"]`. -/
def textOnlyPass : List Json → Except String (List Date) := ownPostsPass textOnlyPred

/-- The comprehension for `posts["own_posts_links"]`. -/
def linksPass : List Json → Except String (List Date) := ownPostsPass linksPred

/-- Result of `get_own_posts`: the dict with its four fixed keys. -/
structure OwnPosts where
  own_posts_all : List Date
  own_posts_media : List Date
  own_posts_text_only : List Date
  own_posts_links : List Date
deriving DecidableEq, Repr

/-- `FacebookQuantifier.get_own_posts`: four comprehensions over the top-level
list of post entries.  A non-list top level iterates keys/characters whose
subscripting raises, so only an empty mapping or empty string also succeeds
(with four empty lists), matching Python. -/
def get_own_posts (json_file : Json) : Except String OwnPosts :=
  match pyIter json_file with
  | .error e => .error e
  | .ok items =>
      match allPass items with
      | .error e => .error e
      | .ok alls =>
          match mediaPass items with
          | .error e => .error e
          | .ok media =>
              match textOnlyPass items with
              | .error e => .error e
              | .ok text =>
                  match linksPass items with
                  | .error e => .error e
                  | .ok links => .ok ⟨alls, media, text, links⟩

/-! ### `FacebookQuantifier.get_messages` -/

/-- `self.user` / sender-name normalization:
`s.replace(" ", "").lower()` — remove every space, lowercase (ASCII). -/
def normalizeName (s : String) : String :=
  String.mk ((s.data.filter (fun c => c ≠ ' ')).map Char.toLower)

/-- `message["sender_name"].replace(" ", "").lower()`:
the normalized sender name of one message, or the raised exception. -/
def senderNorm (m : Json) : Except String String :=
  match m with
  | .obj fields =>
      match lookupKey fields "sender_name" with
      | some (.str s) => .ok (normalizeName s)
      | some _ => .error "AttributeError: object has no attribute replace"
      | none => .error "KeyError: sender_name"
  | .str _ => .error "TypeError: string indices must be integers"
  | .arr _ => .error "TypeError: list indices must be integers"
  | _ => .error "TypeError: object is not subscriptable"

/-- `datetime.fromtimestamp(message["timestamp_ms"] / 1000).date()`. -/
def msgDate (m : Json) : Except String Date :=
  match m with
  | .obj fields =>
      match lookupKey fields "timestamp_ms" with
      | some (.num ms) => .ok (fromtimestampDate (ms.fdiv 1000))
      | some _ => .error "TypeError: unsupported operand types for division"
      | none => .error "KeyError: timestamp_ms"
  | .str _ => .error "TypeError: string indices must be integers"
  | .arr _ => .error "TypeError: list indices must be integers"
  | _ => .error "TypeError: object is not subscriptable"

/-- The comprehension extending `messages["message_sent"]`: dates of messages
whose normalized sender name equals `self.user`. -/
def msgSentPass (user : String) : List Json → Except String (List Date)
  | [] => .ok []
  | m :: rest =>
      match senderNorm m with
      | .error e => .error e
      | .ok s =>
          if s == user then
            match msgDate m with
            | .error e => .error e
            | .ok d =>
                match msgSentPass user rest with
                | .error e => .error e
                | .ok ds => .ok (d :: ds)
          else msgSentPass user rest

/-- The comprehension extending `messages["message_received"]`: dates of
messages whose normalized sender name differs from `self.user`. -/
def msgReceivedPass (user : String) : List Json → Except String (List Date)
  | [] => .ok []
  | m :: rest =>
      match senderNorm m with
      | .error e => .error e
      | .ok s =>
          if s != user then
            match msgDate m with
            | .error e => .error e
            | .ok d =>
                match msgReceivedPass user rest with
                | .error e => .error e
                | .ok ds => .ok (d :: ds)
          else msgReceivedPass user rest

/-- `json_file["messages"]` of one message file, which both comprehensions
iterate over. -/
def fileMessages (j : Json) : Except String (List Json) :=
  match getItem j "messages" with
  | .error e => .error e
  | .ok v => pyIter v

/-- The per-file loop of `get_messages`: extend the sent and received lists
with each file's matching messages, in file order. -/
def collectMessages (user : String) : List Json → Except String (List Date × List Date)
  | [] => .ok ([], [])
  | f :: rest =>
      match fileMessages f with
      | .error e => .error e
      | .ok msgs =>
          match msgSentPass user msgs with
          | .error e => .error e
          | .ok sent =>
              match msgReceivedPass user msgs with
              | .error e => .error e
              | .ok recv =>
                  match collectMessages user rest with
                  | .error e => .error e
                  | .ok (sents, recvs) => .ok (sent ++ sents, recv ++ recvs)

/-- Result of `get_messages`: either the two-key dict
`message_sent`/`message_received`, or, when no sent messages were found, the
single-key dict `message_received_or_sent`. -/
inductive MessagesResult where
  | attributed (sent received : List Date)
  | unattributed (received_or_sent : List Date)
deriving DecidableEq, Repr

/-- `FacebookQuantifier.get_messages` over the already-filtered message files
(`files_messages`), each given as its parsed JSON content.  `Option.none`
models the Python `None` returned when there are no message files. -/
def get_messages (user : String) (files : List Json) :
    Except String (Option MessagesResult) :=
  match files with
  | [] => .ok none
  | _ =>
      match collectMessages user files with
      | .error e => .error e
      | .ok (sent, recv) =>
          if sent.isEmpty then .ok (some (.unattributed recv))
          else .ok (some (.attributed sent recv))

/-! ### `FacebookQuantifier.get_viewed` / `get_visited` / `get_menu_items` -/

/-- A `views` / `visited` dict under construction: association list in
insertion order. -/
abbrev DateDict := List (String × List Date)

/-- Python dict assignment `d[k] = v`: update in place when the key exists,
append otherwise (the dicts built here always have distinct keys). -/
def dictSet : DateDict → String → List Date → DateDict
  | [], k, v => [(k, v)]
  | (k', v') :: rest, k, v =>
      if k' == k then (k, v) :: rest else (k', v') :: dictSet rest k v

/-- `[datetime.fromtimestamp(item["timestamp"]).date() for item in entries]`. -/
def entryDates : List Json → Except String (List Date)
  | [] => .ok []
  | item :: rest =>
      match getItem item "timestamp" with
      | .error e => .error e
      | .ok (.num ts) =>
          match entryDates rest with
          | .error e => .error e
          | .ok ds => .ok (fromtimestampDate ts :: ds)
      | .ok _ => .error "TypeError: fromtimestamp requires a number"

/-- Dates of `node["entries"]` for a category or child node. -/
def entriesDates (node : Json) : Except String (List Date) :=
  match getItem node "entries" with
  | .error e => .error e
  | .ok v =>
      match pyIter v with
      | .error e => .error e
      | .ok items => entryDates items

/-- Inner loop for the `"Facebook Watch Videos and Shows"` category:
`for watchtype in category["children"]: if watchtype["name"] == "Time Viewed":
views["viewed_video"] = [...]`. -/
def viewedVideoChildren (views : DateDict) : List Json → Except String DateDict
  | [] => .ok views
  | w :: rest =>
      match getItem w "name" with
      | .error e => .error e
      | .ok nm =>
          if jsonEqStr nm "Time Viewed" then
            match entriesDates w with
            | .error e => .error e
            | .ok ds => viewedVideoChildren (dictSet views "viewed_video" ds) rest
          else viewedVideoChildren views rest

/-- Inner loop for the `"Marketplace"` category:
`for market_view in category["children"]:
views["viewed_marketplace_item"] = [...]` — note: no name check on the child,
and each child's assignment overwrites the previous one. -/
def viewedMarketChildren (views : DateDict) : List Json → Except String DateDict
  | [] => .ok views
  | mv :: rest =>
      match entriesDates mv with
      | .error e => .error e
      | .ok ds => viewedMarketChildren (dictSet views "viewed_marketplace_item" ds) rest

/-- The category loop of `get_viewed` (three independent `if`s per category). -/
def viewedLoop (views : DateDict) : List Json → Except String DateDict
  | [] => .ok views
  | cat :: rest =>
      match getItem cat "name" with
      | .error e => .error e
      | .ok nm =>
          match
            (if jsonEqStr nm "Facebook Watch Videos and Shows" then
              match getItem cat "children" with
              | .error e => .error e
              | .ok cv =>
                  match pyIter cv with
                  | .error e => .error e
                  | .ok children => viewedVideoChildren views children
            else .ok views : Except String DateDict)
          with
          | .error e => .error e
          | .ok views1 =>
              match
                (if jsonEqStr nm "Articles" then
                  match entriesDates cat with
                  | .error e => .error e
                  | .ok ds => .ok (dictSet views1 "viewed_article" ds)
                else .ok views1 : Except String DateDict)
              with
              | .error e => .error e
              | .ok views2 =>
                  match
                    (if jsonEqStr nm "Marketplace" then
                      match getItem cat "children" with
                      | .error e => .error e
                      | .ok cv =>
                          match pyIter cv with
                          | .error e => .error e
                          | .ok children => viewedMarketChildren views2 children
                    else .ok views2 : Except String DateDict)
                  with
                  | .error e => .error e
                  | .ok views3 => viewedLoop views3 rest

/-- `FacebookQuantifier.get_viewed`: pick the top-level key
(`viewed_things` when present and truthy, else `recently_viewed`) and walk the
categories. -/
def get_viewed (json_file : Json) : Except String DateDict :=
  match json_file with
  | .obj fields =>
      let json_key := if !truthyGet fields "viewed_things" then "recently_viewed"
        else "viewed_things"
      match lookupKey fields json_key with
      | none => .error ("KeyError: " ++ json_key)
      | some v =>
          match pyIter v with
          | .error e => .error e
          | .ok cats => viewedLoop [] cats
  | _ => .error "AttributeError: object has no attribute get"

/-- Month abbreviations recognized by `strptime` directive `%b`
(matched case-insensitively). -/
def monthAbbrevs : List String :=
  ["jan", "feb", "mar", "apr", "may", "jun", "jul", "aug", "sep", "oct", "nov", "dec"]

/-- Number of days in a month, with leap years (the validity check
`datetime` performs on construction). -/
def daysInMonth (y : Int) (m : Nat) : Nat :=
  if m = 2 then (if y % 4 = 0 ∧ (y % 100 ≠ 0 ∨ y % 400 = 0) then 29 else 28)
  else if m = 4 ∨ m = 6 ∨ m = 9 ∨ m = 11 then 30 else 31

/-- Split a character list on single spaces (Python `s.split(" ")` semantics
as used by the `strptime` format's literal spaces). -/
def splitOnSpace : List Char → List Char → List (List Char)
  | [], acc => [acc.reverse]
  | c :: rest, acc =>
      if c = ' ' then acc.reverse :: splitOnSpace rest []
      else splitOnSpace rest (c :: acc)

/-- Parse a non-empty all-digit character list as a natural number. -/
def digitsToNat? (cs : List Char) : Option Nat :=
  if !cs.isEmpty && cs.all Char.isDigit then
    some (cs.foldl (fun n c => n * 10 + (c.toNat - 48)) 0)
  else none

/-- `datetime.strptime(s, "%b %d, %Y").date()`: month abbreviation (matched
case-insensitively), day (1-2 digits, validated against the month on
`datetime` construction), literal comma, 4-digit year.
`none` models the `ValueError` raised on a non-matching string. -/
def strptime_bdY (s : String) : Option Date :=
  match splitOnSpace s.data [] with
  | [monCs, dayComma, yearCs] =>
      match dayComma.reverse with
      | ',' :: dayRev =>
          let dayCs := dayRev.reverse
          match monthAbbrevs.findIdx? (fun m => m.data == monCs.map Char.toLower) with
          | none => none
          | some mi =>
              if dayCs.length ≤ 2 && yearCs.length == 4 then
                match digitsToNat? dayCs, digitsToNat? yearCs with
                | some d, some y =>
                    if 1 ≤ d ∧ d ≤ daysInMonth (y : Int) (mi + 1) then
                      some ⟨(y : Int), mi + 1, d⟩
                    else none
                | _, _ => none
              else none
      | _ => none
  | _ => none

/-- The `"Marketplace Visits"` entries comprehension:
`datetime.strptime(item["data"]["value"], "%b %d, %Y").date()` per entry. -/
def marketEntryDates : List Json → Except String (List Date)
  | [] => .ok []
  | item :: rest =>
      match getItem item "data" with
      | .error e => .error e
      | .ok dj =>
          match getItem dj "value" with
          | .error e => .error e
          | .ok (.str s) =>
              match strptime_bdY s with
              | none => .error "ValueError: time data does not match format"
              | some d =>
                  match marketEntryDates rest with
                  | .error e => .error e
                  | .ok ds => .ok (d :: ds)
          | .ok _ => .error "TypeError: strptime argument must be str"

/-- The category loop of `get_visited` (five independent `if`s per category).
Note the comparison against the misspelled key `"visted_page"` is in
`__init__`, not here: this function emits the key `"visited_page"`. -/
def visitedLoop (visited : DateDict) : List Json → Except String DateDict
  | [] => .ok visited
  | cat :: rest =>
      match getItem cat "name" with
      | .error e => .error e
      | .ok nm =>
          match
            (if jsonEqStr nm "Profile visits" then
              match entriesDates cat with
              | .error e => .error e
              | .ok ds => .ok (dictSet visited "visited_profile" ds)
            else .ok visited : Except String DateDict)
          with
          | .error e => .error e
          | .ok v1 =>
              match
                (if jsonEqStr nm "Page visits" then
                  match entriesDates cat with
                  | .error e => .error e
                  | .ok ds => .ok (dictSet v1 "visited_page" ds)
                else .ok v1 : Except String DateDict)
              with
              | .error e => .error e
              | .ok v2 =>
                  match
                    (if jsonEqStr nm "Events visited" then
                      match entriesDates cat with
                      | .error e => .error e
                      | .ok ds => .ok (dictSet v2 "visited_event_page" ds)
                    else .ok v2 : Except String DateDict)
                  with
                  | .error e => .error e
                  | .ok v3 =>
                      match
                        (if jsonEqStr nm "Groups visited" then
                          match entriesDates cat with
                          | .error e => .error e
                          | .ok ds => .ok (dictSet v3 "visited_group_page" ds)
                        else .ok v3 : Except String DateDict)
                      with
                      | .error e => .error e
                      | .ok v4 =>
                          match
                            (if jsonEqStr nm "Marketplace Visits" then
                              match getItem cat "entries" with
                              | .error e => .error e
                              | .ok ev =>
                                  match pyIter ev with
                                  | .error e => .error e
                                  | .ok items =>
                                      match marketEntryDates items with
                                      | .error e => .error e
                                      | .ok ds => .ok (dictSet v4 "visited_marketplace" ds)
                            else .ok v4 : Except String DateDict)
                          with
                          | .error e => .error e
                          | .ok v5 => visitedLoop v5 rest

/-- `FacebookQuantifier.get_visited`: pick the top-level key
(`visited_things` when present and truthy, else `visited_things_v2`) and walk
the categories. -/
def get_visited (json_file : Json) : Except String DateDict :=
  match json_file with
  | .obj fields =>
      let json_key := if !truthyGet fields "visited_things" then "visited_things_v2"
        else "visited_things"
      match lookupKey fields json_key with
      | none => .error ("KeyError: " ++ json_key)
      | some v =>
          match pyIter v with
          | .error e => .error e
          | .ok cats => visitedLoop [] cats
  | _ => .error "AttributeError: object has no attribute get"

/-- `FacebookQuantifier.get_menu_items`:
`json_file["menu_items"][0]["entries"]` timestamps. -/
def get_menu_items (json_file : Json) : Except String (List Date) :=
  match getItem json_file "menu_items" with
  | .error e => .error e
  | .ok v =>
      match v with
      | .arr (first :: _) =>
          match getItem first "entries" with
          | .error e => .error e
          | .ok ev =>
              match pyIter ev with
              | .error e => .error e
              | .ok items => entryDates items
      | .arr [] => .error "IndexError: list index out of range"
      | _ => .error "TypeError: indices must be integers"

/-! ### `FacebookQuantifier.__init__`: the per-file dispatch loop and the
message phase -/

/-- One JSON file of the archive: its filename, whether it lies under the
`messages` subtree of the archive folder, and its parsed content
(`load_file`). -/
structure ArchiveFile where
  name : String
  inMessages : Bool
  content : Json
deriving DecidableEq, Repr

/-- The dynamically created data attributes of the `FacebookQuantifier`
instance: attribute name to its Python value (`none` = attribute absent;
`some none` = attribute holds Python `None`; `some (some l)` = attribute
holds a list of dates). -/
abbrev Attrs := String → Option (Option (List Date))

/-- Attribute assignment `self.<k> = v`. -/
def Attrs.set (a : Attrs) (k : String) (v : Option (List Date)) : Attrs :=
  fun k' => if k' = k then some v else a k'

/-- The freshly constructed instance: no data attributes yet. -/
def emptyAttrs : Attrs := fun _ => none

/-- The registry implicit in the `elif` chain of `__init__` for the files
handled directly by `get_timestamps`:
filename alias to (attribute name, timestamp field name). -/
def simpleFileTable : List (String × String × String) :=
  [("friends.json", "added_friend", "timestamp"),
   ("received_friend_requests.json", "received_friend_request", "timestamp"),
   ("friend_requests_received.json", "received_friend_request", "timestamp"),
   ("rejected_friend_requests.json", "rejected_friend_reject", "timestamp"),
   ("removed_friends.json", "removed_friend", "timestamp"),
   ("apps_and_websites.json", "installed_app", "added_timestamp"),
   ("comments.json", "commented", "timestamp"),
   ("posts_and_comments.json", "reactions", "timestamp"),
   ("other_people\x27s_posts_to_your_timeline.json", "others_posts_timeline", "timestamp"),
   ("notes.json", "created_note", "created_timestamp"),
   ("your_event_responses.json", "responded_event", "start_timestamp"),
   ("your_group_membership_activity.json", "group_membership_activity", "timestamp"),
   ("your_posts_and_comments_in_groups.json", "group_posts", "timestamp"),
   ("posts_from_apps_and_websites.json", "apps_posts", "timestamp"),
   ("event_invitations.json", "event_invitation", "start_timestamp"),
   ("pages.json", "liked_page", "timestamp"),
   ("pages_you\x27ve_liked.json", "liked_page", "timestamp"),
   ("your_pages.json", "created_page", "timestamp"),
   ("likes_on_external_sites.json", "liked_external_pages", "timestamp"),
   ("profile_update_history.json", "profile_updated", "timestamp"),
   ("your_search_history.json", "searched", "timestamp"),
   ("advertisers_you\x27ve_interacted_with.json", "ad_interaction", "timestamp"),
   ("pokes.json", "poked", "timestamp"),
   ("polls_you_voted_on.json", "voted", "timestamp"),
   ("saved_items_and_collections.json", "saved_item", "timestamp"),
   ("following.json", "followed_sb_st", "timestamp"),
   ("who_you_follow.json", "followed_sb_st", "timestamp"),
   ("your_address_books.json", "addressbook_entry", "created_timestamp")]

/-- The `if view_type == ...` dispatch for `get_viewed` results
(lines 222-228): only the three known keys are copied to attributes. -/
def viewedUpdates : DateDict → List (String × Option (List Date))
  | [] => []
  | (k, ds) :: rest =>
      (if k == "viewed_video" then [("viewed_video", some ds)] else []) ++
      (if k == "viewed_article" then [("viewed_article", some ds)] else []) ++
      (if k == "viewed_marketplace_item" then [("viewed_marketplace_item", some ds)] else []) ++
      viewedUpdates rest

/-- The `if visited_type == ...` dispatch for `get_visited` results
(lines 232-242).  Faithful to the source, the second comparison tests the
misspelled key `"visted_page"`, so the `"visited_page"` key that
`get_visited` actually emits never matches. -/
def visitedUpdates : DateDict → List (String × Option (List Date))
  | [] => []
  | (k, ds) :: rest =>
      (if k == "visited_profile" then [("visited_profile", some ds)] else []) ++
      (if k == "visted_page" then [("visited_page", some ds)] else []) ++
      (if k == "visited_event_page" then [("visited_event_page", some ds)] else []) ++
      (if k == "visited_group_page" then [("visited_group_page", some ds)] else []) ++
      (if k == "visited_marketplace" then [("visited_marketplace", some ds)] else []) ++
      visitedUpdates rest

/-- The attribute assignments one file's branch of the `elif` chain performs,
or the exception its extraction raises.  An unrecognized filename performs no
assignment. -/
def fileUpdates (f : ArchiveFile) : Except String (List (String × Option (List Date))) :=
  match lookupKey simpleFileTable f.name with
  | some (attr, tstr) =>
      match get_timestamps f.content tstr with
      | .error e => .error e
      | .ok res => .ok [(attr, res)]
  | none =>
      if f.name == "your_posts_1.json" then
        match get_own_posts f.content with
        | .error e => .error e
        | .ok posts =>
            .ok [("own_posts_all", some posts.own_posts_all),
                 ("own_posts_media", some posts.own_posts_media),
                 ("own_posts_text_only", some posts.own_posts_text_only),
                 ("own_posts_links", some posts.own_posts_links)]
      else if f.name == "viewed.json" || f.name == "recently_viewed.json" then
        match get_viewed f.content with
        | .error e => .error e
        | .ok views => .ok (viewedUpdates views)
      else if f.name == "visited.json" || f.name == "recently_visited.json" then
        match get_visited f.content with
        | .error e => .error e
        | .ok vis => .ok (visitedUpdates vis)
      else if f.name == "menu_items.json" then
        match get_menu_items f.content with
        | .error e => .error e
        | .ok ds => .ok [("clicked_menu_items", some ds)]
      else .ok []

/-- Apply a list of attribute assignments in order. -/
def applyUpdates (a : Attrs) : List (String × Option (List Date)) → Attrs
  | [] => a
  | (k, v) :: rest => applyUpdates (a.set k v) rest

/-- Process one file of the `for file in self.json_files` loop. -/
def processFile (a : Attrs) (f : ArchiveFile) : Except String Attrs :=
  match fileUpdates f with
  | .error e => .error e
  | .ok us => .ok (applyUpdates a us)

/-- The whole `for file in self.json_files` loop, in enumeration order. -/
def processFiles (a : Attrs) : List ArchiveFile → Except String Attrs
  | [] => .ok a
  | f :: rest =>
      match processFile a f with
      | .error e => .error e
      | .ok a' => processFiles a' rest

/-- Message files excluded from the message phase. -/
def excludeMessages : List String :=
  ["autofill_information.json", "secret_groups.json"]

/-- `FacebookQuantifier.__init__`: normalize the user name, run the per-file
dispatch loop, then analyze the message files and store the resulting
buckets. -/
def quantify (user : String) (files : List ArchiveFile) : Except String Attrs :=
  let user := normalizeName user
  match processFiles emptyAttrs files with
  | .error e => .error e
  | .ok a =>
      let msgFiles := files.filter
        (fun f => f.inMessages && !excludeMessages.contains f.name)
      match get_messages user (msgFiles.map (·.content)) with
      | .error e => .error e
      | .ok none => .ok a
      | .ok (some (.attributed sent recv)) =>
          .ok ((a.set "message_sent" (some sent)).set "message_received" (some recv))
      | .ok (some (.unattributed l)) =>
          .ok (a.set "message_received_or_sent" (some l))

/-- The per-kind-per-date count table derived from the instance attributes
(`get_activity_counts`): a `Counter` over a list of dates is exactly its
multiset, mapping each date to its count.  `some none` marks an attribute
holding Python `None`. -/
def countTable (a : Attrs) : String → Option (Option (Multiset Date)) :=
  fun k => (a k).map (fun v => v.map (fun l => Multiset.ofList l))

/-- The set of attribute names a file's branch can assign (independent of the
file's content for the simple and own-posts/menu branches; an over-
approximation for the viewed/visited branches). -/
def writtenKeys (f : ArchiveFile) : List String :=
  match lookupKey simpleFileTable f.name with
  | some (attr, _) => [attr]
  | none =>
      if f.name == "your_posts_1.json" then
        ["own_posts_all", "own_posts_media", "own_posts_text_only", "own_posts_links"]
      else if f.name == "viewed.json" || f.name == "recently_viewed.json" then
        ["viewed_video", "viewed_article", "viewed_marketplace_item"]
      else if f.name == "visited.json" || f.name == "recently_visited.json" then
        ["visited_profile", "visited_page", "visited_event_page",
         "visited_group_page", "visited_marketplace"]
      else if f.name == "menu_items.json" then ["clicked_menu_items"]
      else []

/-- The pure effect of one file's branch when its extraction succeeds
(`[]` for a file that would raise — successful runs never hit that case). -/
def fileUpdatesD (f : ArchiveFile) : List (String × Option (List Date)) :=
  match fileUpdates f with
  | .ok us => us
  | .error _ => []

/-- Pure per-file step of the dispatch loop. -/
def applyFileD (a : Attrs) (f : ArchiveFile) : Attrs :=
  applyUpdates a (fileUpdatesD f)

/-! ### Pure projections used to state properties of the message phase -/

/-- All messages of a message file (`json_file["messages"]`); `[]` for a file
whose messages cannot be read (such a file makes the whole phase raise, so
successful runs never hit that branch). -/
def msgsOf (f : Json) : List Json :=
  match fileMessages f with
  | .ok l => l
  | .error _ => []

/-- Does a message's normalized sender name equal `self.user`? -/
def msgMatches (user : String) (m : Json) : Bool :=
  match senderNorm m with
  | .ok s => s == user
  | .error _ => false

/-- The date of a message, when readable. -/
def msgDateD (m : Json) : Option Date :=
  match msgDate m with
  | .ok d => some d
  | .error _ => none

/-! ## Claims -/

/-- **C2**: for every parsed JSON mapping, (i) whenever the shallow tier-1
scan finds at least one timestamp its result is returned and the tier-2 scan
is never consulted (the result is fixed by tier-1 alone, whatever tier-2
would do); (ii) whenever tier-1 finds zero timestamps and the nested tier-2
scan finds at least one, the extractor returns exactly the tier-2 results. -/
theorem c2_two_tier_fallback (fields : List (String × Json)) (timestr : String) :
    (∀ l, tier1 fields timestr = .ok l → l ≠ [] →
      get_timestamps (Json.obj fields) timestr = .ok (some l)) ∧
    (∀ l, tier1 fields timestr = .ok [] → tier2 fields timestr = .ok l → l ≠ [] →
      get_timestamps (Json.obj fields) timestr = .ok (some l)) := by
  constructor
  · intro l h1 hne
    have hl : l.isEmpty = false := by
      cases l with
      | nil => exact absurd rfl hne
      | cons x xs => rfl
    simp [get_timestamps, h1, hl]
  · intro l h1 h2 hne
    have hl : l.isEmpty = false := by
      cases l with
      | nil => exact absurd rfl hne
      | cons x xs => rfl
    simp [get_timestamps, h1, h2, hl]

/-- Witness for C2: a tier-2-shaped file (values are mappings of lists) with
one timestamp; tier-1 finds nothing, the extractor returns the tier-2 date. -/
theorem c2_two_tier_fallback_witness :
    get_timestamps
      (Json.obj [("a", Json.obj [("b", Json.arr [Json.obj [("timestamp", Json.num 86400)]])])])
      "timestamp" = .ok (some [⟨1970, 1, 2⟩]) :=
  (c2_two_tier_fallback
    [("a", Json.obj [("b", Json.arr [Json.obj [("timestamp", Json.num 86400)]])])]
    "timestamp").2 [⟨1970, 1, 2⟩] rfl rfl (by decide)

/-- **C7** (code bug evidence): a mapping whose value is an empty list, and a
mapping whose value is a list of mappings lacking the timestamp field, both
yield zero timestamps under tier-1 — but the tier-2 scan then calls
`.values()` on the list and raises `AttributeError` instead of returning the
non-fatal no-timestamps outcome.  The no-timestamps outcome (`.ok none`) is
only reached when every top-level value is itself a mapping. -/
theorem c7_zero_timestamps_raises :
    get_timestamps (Json.obj [("a", Json.arr [])]) "timestamp" =
        .error "AttributeError: object has no attribute values" ∧
    get_timestamps (Json.obj [("a", Json.arr [Json.obj [("x", Json.num 1)]])]) "timestamp" =
        .error "AttributeError: object has no attribute values" ∧
    get_timestamps (Json.obj [("a", Json.obj [])]) "timestamp" = .ok none :=
  ⟨rfl, rfl, rfl⟩

/-- A visited file with a single `"Page visits"` category holding one entry. -/
def pageVisitsFile : Json :=
  .obj [("visited_things", .arr [.obj [("name", .str "Page visits"),
    ("entries", .arr [.obj [("timestamp", .num 86400)]])]])]

/-- A visited file with a single `"Profile visits"` category holding one
entry. -/
def profileVisitsFile : Json :=
  .obj [("visited_things", .arr [.obj [("name", .str "Profile visits"),
    ("entries", .arr [.obj [("timestamp", .num 86400)]])]])]

/-- **C5** (code bug evidence): `get_visited` does emit the page-visit dates
under the key `"visited_page"`, but the `__init__` dispatch compares against
the misspelled string `"visted_page"`, so the run's final attributes never
record a page-visit kind (`a "visited_page" = none`), while the analogous
`"Profile visits"` category is recorded. -/
theorem c5_page_visits_never_recorded :
    get_visited pageVisitsFile = .ok [("visited_page", [⟨1970, 1, 2⟩])] ∧
    Except.map (fun a => a "visited_page")
      (quantify "User" [⟨"visited.json", false, pageVisitsFile⟩]) = .ok none ∧
    Except.map (fun a => a "visited_profile")
      (quantify "User" [⟨"visited.json", false, profileVisitsFile⟩]) =
        .ok (some (some [⟨1970, 1, 2⟩])) :=
  ⟨rfl, rfl, rfl⟩

/-- A viewed file with a `"Marketplace"` category whose two children carry
labels that match no known child label. -/
def marketViewedTwoChildren : Json :=
  .obj [("viewed_things", .arr [.obj [("name", .str "Marketplace"), ("children", .arr
    [.obj [("name", .str "Some Label"), ("entries", .arr [.obj [("timestamp", .num 0)]])],
     .obj [("name", .str "Another Label"),
       ("entries", .arr [.obj [("timestamp", .num 86400)]])]])]])]

/-- **C6** (counterexample): in a Marketplace category, children whose labels
match no known label still contribute events — `get_viewed` reads every
child's entries without any name check, each child overwriting the previous
one, so the result holds the *last* child's dates (here the child labelled
`"Another Label"`). -/
theorem c6_counterexample :
    get_viewed marketViewedTwoChildren =
      .ok [("viewed_marketplace_item", [⟨1970, 1, 2⟩])] := rfl

/-- Inversion of one step of the unguarded `own_posts_all` comprehension. -/
theorem allPass_cons_ok {item : Json} {rest : List Json} {A : List Date}
    (h : allPass (item :: rest) = .ok A) :
    ∃ d A', itemTimestamp item = .ok d ∧ allPass rest = .ok A' ∧ A = d :: A' := by
  unfold allPass at h
  cases hit : itemTimestamp item with
  | error e => rw [hit] at h; exact absurd h (by simp)
  | ok d =>
      rw [hit] at h
      cases hr : allPass rest with
      | error e => rw [hr] at h; exact absurd h (by simp)
      | ok A' =>
          rw [hr] at h
          simp only [Except.ok.injEq] at h
          exact ⟨d, A', rfl, rfl, h.symm⟩

/-- Inversion of one step of a guarded own-posts comprehension. -/
theorem ownPostsPass_cons_ok {p : String → Bool} {item : Json} {rest : List Json}
    {M : List Date} (h : ownPostsPass p (item :: rest) = .ok M) :
    ∃ s, itemValuesStr item = .ok s ∧
      ((p s = true ∧ ∃ d M', itemTimestamp item = .ok d ∧
          ownPostsPass p rest = .ok M' ∧ M = d :: M') ∨
        (p s = false ∧ ownPostsPass p rest = .ok M)) := by
  unfold ownPostsPass at h
  split at h
  next e heq => exact absurd h (by simp)
  next s heq =>
    refine ⟨s, heq, ?_⟩
    by_cases hp : p s = true
    · rw [if_pos hp] at h
      split at h
      next e heq2 => exact absurd h (by simp)
      next d heq2 =>
        split at h
        next e heq3 => exact absurd h (by simp)
        next M' heq3 =>
          simp only [Except.ok.injEq] at h
          exact Or.inl ⟨hp, d, M', heq2, heq3, h.symm⟩
    · rw [if_neg hp] at h
      exact Or.inr ⟨by simpa using hp, h⟩

/-- The three own-posts marker tests hold for exactly one of
media / links / text-only, on every flattened values string. -/
theorem ownPostsPred_exactly_one (s : String) :
    (mediaPred s).toNat + (linksPred s).toNat + (textOnlyPred s).toNat = 1 := by
  unfold mediaPred linksPred textOnlyPred
  cases strContains s "media" <;> cases strContains s "external_context" <;> rfl

/-- Partition property of the four own-posts comprehensions: when all four
succeed, the unguarded pass emits one date per entry, and the three guarded
passes' lengths sum to it, provided the guards are mutually exclusive and
exhaustive. -/
theorem ownPostsPass_partition (p₁ p₂ p₃ : String → Bool)
    (hp : ∀ s, (p₁ s).toNat + (p₂ s).toNat + (p₃ s).toNat = 1)
    (items : List Json) (A M L T : List Date)
    (hA : allPass items = .ok A)
    (h₁ : ownPostsPass p₁ items = .ok M)
    (h₂ : ownPostsPass p₂ items = .ok L)
    (h₃ : ownPostsPass p₃ items = .ok T) :
    A.length = items.length ∧ M.length + L.length + T.length = A.length := by
  induction items generalizing A M L T with
  | nil =>
      simp only [allPass, Except.ok.injEq] at hA
      simp only [ownPostsPass, Except.ok.injEq] at h₁ h₂ h₃
      subst hA; subst h₁; subst h₂; subst h₃
      simp
  | cons item rest ih =>
      obtain ⟨d, A', hit, hA', rfl⟩ := allPass_cons_ok hA
      obtain ⟨s₁, hs₁, hc₁⟩ := ownPostsPass_cons_ok h₁
      obtain ⟨s₂, hs₂, hc₂⟩ := ownPostsPass_cons_ok h₂
      obtain ⟨s₃, hs₃, hc₃⟩ := ownPostsPass_cons_ok h₃
      rw [hs₁] at hs₂ hs₃
      injection hs₂ with hs₂; injection hs₃ with hs₃
      subst hs₂; subst hs₃
      have hone := hp s₁
      rcases hc₁ with ⟨hb₁, d₁, M', hit₁, hM', rfl⟩ | ⟨hb₁, hM'⟩ <;>
        rcases hc₂ with ⟨hb₂, d₂, L', hit₂, hL', rfl⟩ | ⟨hb₂, hL'⟩ <;>
          rcases hc₃ with ⟨hb₃, d₃, T', hit₃, hT', rfl⟩ | ⟨hb₃, hT'⟩ <;>
            rw [hb₁, hb₂, hb₃] at hone <;> simp only [Bool.toNat_true,
              Bool.toNat_false] at hone <;> try omega
      · obtain ⟨ha, hb⟩ := ih A' M' L T hA' hM' hL' hT'
        simp only [List.length_cons]
        omega
      · obtain ⟨ha, hb⟩ := ih A' M L' T hA' hM' hL' hT'
        simp only [List.length_cons]
        omega
      · obtain ⟨ha, hb⟩ := ih A' M L T' hA' hM' hL' hT'
        simp only [List.length_cons]
        omega

/-- Every entry of a successful guarded pass has a flattened values string. -/
theorem ownPostsPass_values_ok {p : String → Bool} :
    ∀ {items : List Json} {M : List Date}, ownPostsPass p items = .ok M →
      ∀ item ∈ items, ∃ s, itemValuesStr item = .ok s
  | [], _, _, item, hmem => absurd hmem (by simp)
  | i :: rest, M, h, item, hmem => by
      obtain ⟨s, hs, hc⟩ := ownPostsPass_cons_ok h
      rcases List.mem_cons.mp hmem with rfl | hmem'
      · exact ⟨s, hs⟩
      · rcases hc with ⟨_, _, M', _, hM', _⟩ | ⟨_, hM'⟩
        · exact ownPostsPass_values_ok hM' item hmem'
        · exact ownPostsPass_values_ok hM' item hmem'

/-- **C3**: on a successful run of the own-posts splitter, every entry
contributes one event to the `own_posts_all` bucket; the media / links /
text-only buckets partition the entries (their sizes sum to the size of the
all-posts bucket); and each entry's flattened values string satisfies exactly
one of the three marker tests (media; link-and-no-media; neither). -/
theorem c3_own_posts_partition (items : List Json) (posts : OwnPosts)
    (h : get_own_posts (Json.arr items) = .ok posts) :
    posts.own_posts_all.length = items.length ∧
    posts.own_posts_media.length + posts.own_posts_links.length +
      posts.own_posts_text_only.length = posts.own_posts_all.length ∧
    ∀ item ∈ items, ∃ s, itemValuesStr item = .ok s ∧
      (mediaPred s).toNat + (linksPred s).toNat + (textOnlyPred s).toNat = 1 := by
  unfold get_own_posts at h
  simp only [pyIter] at h
  cases hA : allPass items with
  | error e => rw [hA] at h; exact absurd h (by simp)
  | ok A =>
      rw [hA] at h
      cases hM : mediaPass items with
      | error e => rw [hM] at h; exact absurd h (by simp)
      | ok M =>
          rw [hM] at h
          cases hT : textOnlyPass items with
          | error e => rw [hT] at h; exact absurd h (by simp)
          | ok T =>
              rw [hT] at h
              cases hL : linksPass items with
              | error e => rw [hL] at h; exact absurd h (by simp)
              | ok L =>
                  rw [hL] at h
                  simp only [Except.ok.injEq] at h
                  subst h
                  obtain ⟨ha, hb⟩ := ownPostsPass_partition mediaPred linksPred
                    textOnlyPred ownPostsPred_exactly_one items A M L T hA hM hL hT
                  refine ⟨ha, hb, ?_⟩
                  intro item hmem
                  obtain ⟨s, hs⟩ := ownPostsPass_values_ok hM item hmem
                  exact ⟨s, hs, ownPostsPred_exactly_one s⟩

/-- Witness for C3: three posts — one with a media marker, one with an
external-context marker, one with neither — split 1/1/1 with all three in
the all-posts bucket. -/
theorem c3_own_posts_partition_witness :
    get_own_posts (Json.arr
      [Json.obj [("timestamp", Json.num 0),
         ("attachments", Json.arr [Json.obj [("media", Json.str "photo.jpg")]])],
       Json.obj [("timestamp", Json.num 86400),
         ("attachments", Json.arr [Json.obj [("external_context",
           Json.obj [("url", Json.str "example.com")])]])],
       Json.obj [("timestamp", Json.num 172800),
         ("title", Json.str "plain text post")]]) =
      .ok ⟨[⟨1970, 1, 1⟩, ⟨1970, 1, 2⟩, ⟨1970, 1, 3⟩], [⟨1970, 1, 1⟩],
        [⟨1970, 1, 3⟩], [⟨1970, 1, 2⟩]⟩ ∧
    (1 + 1 + 1 = 3 ∧ 3 = 3) :=
  ⟨rfl, by
    have := c3_own_posts_partition
      [Json.obj [("timestamp", Json.num 0),
         ("attachments", Json.arr [Json.obj [("media", Json.str "photo.jpg")]])],
       Json.obj [("timestamp", Json.num 86400),
         ("attachments", Json.arr [Json.obj [("external_context",
           Json.obj [("url", Json.str "example.com")])]])],
       Json.obj [("timestamp", Json.num 172800),
         ("title", Json.str "plain text post")]]
      ⟨[⟨1970, 1, 1⟩, ⟨1970, 1, 2⟩, ⟨1970, 1, 3⟩], [⟨1970, 1, 1⟩],
        [⟨1970, 1, 3⟩], [⟨1970, 1, 2⟩]⟩ rfl
    exact ⟨this.2.1, this.1⟩⟩

/-- A visited file holding a single `"Marketplace Visits"` category whose
entries carry the given formatted date strings in `item["data"]["value"]`. -/
def mkMarketVisitsFile (vals : List String) : Json :=
  .obj [("visited_things", .arr [.obj [("name", .str "Marketplace Visits"),
    ("entries", .arr (vals.map fun v => .obj [("data", .obj [("value", .str v)])]))]])]

/-- The Marketplace-Visits comprehension applies `strptime` with format
`"%b %d, %Y"` to every entry's `data.value` string. -/
theorem marketEntryDates_map (vals : List String) (ds : List Date)
    (h : vals.mapM strptime_bdY = some ds) :
    marketEntryDates (vals.map fun v => .obj [("data", .obj [("value", .str v)])]) =
      .ok ds := by
  induction vals generalizing ds with
  | nil =>
    simp only [List.mapM_nil, Option.pure_def, Option.some.injEq] at h
    subst h
    rfl
  | cons v rest ih =>
    rw [List.mapM_cons] at h
    cases hv : strptime_bdY v with
    | none => rw [hv] at h; simp at h
    | some d =>
      rw [hv] at h
      cases hr : rest.mapM strptime_bdY with
      | none => rw [hr] at h; simp at h
      | some ds' =>
        rw [hr] at h
        simp only [Option.pure_def, Option.bind_eq_bind, Option.some_bind,
          Option.some.injEq] at h
        subst h
        simp [marketEntryDates, getItem, lookupKey, hv, ih ds' hr]

/-- **C8**: Marketplace-Visits entries are parsed from their formatted date
string `item["data"]["value"]` using the explicit `"%b %d, %Y"` format (not
epoch conversion): whenever every entry string parses, the recorded
`visited_marketplace` dates are exactly the `strptime` results. -/
theorem c8_marketplace_strptime (vals : List String) (ds : List Date)
    (h : vals.mapM strptime_bdY = some ds) :
    get_visited (mkMarketVisitsFile vals) = .ok [("visited_marketplace", ds)] := by
  simp [get_visited, mkMarketVisitsFile, truthyGet, lookupKey, Json.isTruthy, pyIter,
    visitedLoop, getItem, jsonEqStr, marketEntryDates_map vals ds h, dictSet]

/-- Witness for C8: the entry string `"Sep 20, 2014"` yields the calendar
date 2014-09-20. -/
theorem c8_marketplace_strptime_witness :
    strptime_bdY "Sep 20, 2014" = some ⟨2014, 9, 20⟩ ∧
    get_visited (mkMarketVisitsFile ["Sep 20, 2014"]) =
      .ok [("visited_marketplace", [⟨2014, 9, 20⟩])] :=
  ⟨rfl, c8_marketplace_strptime ["Sep 20, 2014"] [⟨2014, 9, 20⟩] rfl⟩

/-- A viewed/visited tree child node with a label and epoch-timestamp
entries. -/
def mkChild (c : String × List Int) : Json :=
  .obj [("name", .str c.1),
    ("entries", .arr (c.2.map fun t => .obj [("timestamp", .num t)]))]

/-- A viewed file with one top-level category of the given name whose
children are the given labelled entry lists. -/
def mkViewedCat (catName : String) (children : List (String × List Int)) : Json :=
  .obj [("viewed_things", .arr [.obj [("name", .str catName),
    ("children", .arr (children.map mkChild))]])]

/-- The label of a built child node. -/
theorem getItem_mkChild_name (c : String × List Int) :
    getItem (mkChild c) "name" = .ok (.str c.1) := rfl

/-- Epoch entries of a built node evaluate to their converted dates. -/
theorem entryDates_map (ts : List Int) :
    entryDates (ts.map fun t => Json.obj [("timestamp", Json.num t)]) =
      .ok (ts.map fromtimestampDate) := by
  induction ts with
  | nil => rfl
  | cons t rest ih => simp [entryDates, getItem, lookupKey, ih]

/-- `entriesDates` of a built child node. -/
theorem entriesDates_mkChild (c : String × List Int) :
    entriesDates (mkChild c) = .ok (c.2.map fromtimestampDate) := by
  simp [entriesDates, mkChild, getItem, lookupKey, pyIter, entryDates_map]

/-- Re-assigning the same key twice keeps only the second value. -/
theorem dictSet_dictSet (d : DateDict) (k : String) (v v' : List Date) :
    dictSet (dictSet d k v) k v' = dictSet d k v' := by
  induction d with
  | nil => simp [dictSet]
  | cons p rest ih =>
    by_cases h : p.1 == k
    · simp [dictSet, h]
    · simp [dictSet, h, ih]

/-- The Marketplace children loop keeps the last child's entries, with no
label check. -/
theorem viewedMarketChildren_mkChild (views : DateDict)
    (cs : List (String × List Int)) :
    viewedMarketChildren views (cs.map mkChild) =
      .ok (match cs.getLast? with
           | none => views
           | some c => dictSet views "viewed_marketplace_item"
               (c.2.map fromtimestampDate)) := by
  induction cs generalizing views with
  | nil => rfl
  | cons c rest ih =>
    cases hr : rest.getLast? with
    | none =>
      have : rest = [] := by simpa using hr
      subst this
      simp [viewedMarketChildren, entriesDates_mkChild]
    | some c' =>
      simp [viewedMarketChildren, entriesDates_mkChild, ih, hr, List.getLast?_cons,
        dictSet_dictSet]

/-- The video children loop reads only children labelled `"Time Viewed"`,
the last matching child winning. -/
theorem viewedVideoChildren_mkChild (views : DateDict)
    (cs : List (String × List Int)) :
    viewedVideoChildren views (cs.map mkChild) =
      .ok (match (cs.filter (fun c => c.1 == "Time Viewed")).getLast? with
           | none => views
           | some c => dictSet views "viewed_video" (c.2.map fromtimestampDate)) := by
  induction cs generalizing views with
  | nil => rfl
  | cons c rest ih =>
    by_cases hn : c.1 == "Time Viewed"
    · cases hr : (rest.filter (fun c => c.1 == "Time Viewed")).getLast? with
      | none =>
        have h0 : rest.filter (fun c => c.1 == "Time Viewed") = [] := by simpa using hr
        simp [viewedVideoChildren, getItem_mkChild_name, jsonEqStr, hn,
          entriesDates_mkChild, ih, h0, List.filter_cons, dictSet_dictSet]
      | some c' =>
        simp [viewedVideoChildren, getItem_mkChild_name, jsonEqStr, hn,
          entriesDates_mkChild, ih, hr, List.filter_cons, List.getLast?_cons,
          dictSet_dictSet]
    · simp [viewedVideoChildren, getItem_mkChild_name, jsonEqStr, hn, ih,
        List.filter_cons]

/-- **C6** (amended): the video category does descend into `children` and
reads only those labelled `"Time Viewed"` (the last such child winning), but
the Marketplace category reads *every* child's entries without any label
check, each child overwriting the previous, so the last child's entries win
whatever its label is. -/
theorem c6_two_level_categories (cs : List (String × List Int)) :
    get_viewed (mkViewedCat "Facebook Watch Videos and Shows" cs) =
      .ok (match (cs.filter (fun c => c.1 == "Time Viewed")).getLast? with
           | none => []
           | some c => [("viewed_video", c.2.map fromtimestampDate)]) ∧
    get_viewed (mkViewedCat "Marketplace" cs) =
      .ok (match cs.getLast? with
           | none => []
           | some c => [("viewed_marketplace_item", c.2.map fromtimestampDate)]) := by
  constructor
  · cases h : (cs.filter (fun c => c.1 == "Time Viewed")).getLast? with
    | none =>
      simp [get_viewed, mkViewedCat, truthyGet, lookupKey, Json.isTruthy, pyIter,
        viewedLoop, getItem, jsonEqStr, viewedVideoChildren_mkChild, h]
    | some c =>
      simp [get_viewed, mkViewedCat, truthyGet, lookupKey, Json.isTruthy, pyIter,
        viewedLoop, getItem, jsonEqStr, viewedVideoChildren_mkChild, h, dictSet]
  · cases h : cs.getLast? with
    | none =>
      simp [get_viewed, mkViewedCat, truthyGet, lookupKey, Json.isTruthy, pyIter,
        viewedLoop, getItem, jsonEqStr, viewedMarketChildren_mkChild, h]
    | some c =>
      simp [get_viewed, mkViewedCat, truthyGet, lookupKey, Json.isTruthy, pyIter,
        viewedLoop, getItem, jsonEqStr, viewedMarketChildren_mkChild, h, dictSet]

/-- The sent-messages comprehension keeps exactly the matching messages'
dates. -/
theorem msgSentPass_eq {user : String} :
    ∀ {msgs : List Json} {l : List Date}, msgSentPass user msgs = .ok l →
      l = (msgs.filter (msgMatches user)).filterMap msgDateD
  | [], l, h => by
      simp only [msgSentPass, Except.ok.injEq] at h
      simp [h.symm]
  | m :: rest, l, h => by
      unfold msgSentPass at h
      split at h
      next e heq => exact absurd h (by simp)
      next s heq =>
        by_cases hm : (s == user) = true
        · rw [if_pos hm] at h
          split at h
          next e heq2 => exact absurd h (by simp)
          next d heq2 =>
            split at h
            next e heq3 => exact absurd h (by simp)
            next l' heq3 =>
              simp only [Except.ok.injEq] at h
              subst h
              have hmm : msgMatches user m = true := by simp [msgMatches, heq, hm]
              have hd : msgDateD m = some d := by simp [msgDateD, heq2]
              simp [List.filter_cons, hmm, hd, msgSentPass_eq heq3]
        · rw [if_neg hm] at h
          have hmm : msgMatches user m = false := by
            simp only [msgMatches, heq]
            simpa using hm
          simp [List.filter_cons, hmm, msgSentPass_eq h]

/-- The received-messages comprehension keeps exactly the non-matching
messages' dates. -/
theorem msgReceivedPass_eq {user : String} :
    ∀ {msgs : List Json} {l : List Date}, msgReceivedPass user msgs = .ok l →
      l = (msgs.filter (fun m => !msgMatches user m)).filterMap msgDateD
  | [], l, h => by
      simp only [msgReceivedPass, Except.ok.injEq] at h
      simp [h.symm]
  | m :: rest, l, h => by
      unfold msgReceivedPass at h
      split at h
      next e heq => exact absurd h (by simp)
      next s heq =>
        by_cases hm : (s != user) = true
        · rw [if_pos hm] at h
          split at h
          next e heq2 => exact absurd h (by simp)
          next d heq2 =>
            split at h
            next e heq3 => exact absurd h (by simp)
            next l' heq3 =>
              simp only [Except.ok.injEq] at h
              subst h
              have hmm : msgMatches user m = false := by
                simp only [msgMatches, heq]
                simpa [bne] using hm
              have hd : msgDateD m = some d := by simp [msgDateD, heq2]
              simp [List.filter_cons, hmm, hd, msgReceivedPass_eq heq3]
        · rw [if_neg hm] at h
          have hmm : msgMatches user m = true := by
            simp only [msgMatches, heq]
            simpa [bne] using hm
          simp [List.filter_cons, hmm, msgReceivedPass_eq h]

/-- Each message lands in exactly one of the two passes: their lengths sum to
the number of messages. -/
theorem msgPasses_length {user : String} :
    ∀ {msgs : List Json} {sent recv : List Date},
      msgSentPass user msgs = .ok sent → msgReceivedPass user msgs = .ok recv →
      sent.length + recv.length = msgs.length
  | [], sent, recv, hs, hr => by
      simp only [msgSentPass, Except.ok.injEq] at hs
      simp only [msgReceivedPass, Except.ok.injEq] at hr
      simp [hs.symm, hr.symm]
  | m :: rest, sent, recv, hs, hr => by
      unfold msgSentPass at hs
      unfold msgReceivedPass at hr
      split at hs
      next e heq => exact absurd hs (by simp)
      next s heq =>
        rw [heq] at hr
        simp only [Except.ok.injEq] at hr ⊢
        by_cases hm : (s == user) = true
        · rw [if_pos hm] at hs
          rw [if_neg (by simp [bne, hm] : ¬(s != user) = true)] at hr
          split at hs
          next e heq2 => exact absurd hs (by simp)
          next d heq2 =>
            split at hs
            next e heq3 => exact absurd hs (by simp)
            next l' heq3 =>
              simp only [Except.ok.injEq] at hs
              subst hs
              have := msgPasses_length heq3 hr
              simp only [List.length_cons]
              omega
        · rw [if_neg hm] at hs
          have hne : (s != user) = true := by
            simp only [bne]
            simpa using hm
          rw [if_pos hne] at hr
          split at hr
          next e heq2 => exact absurd hr (by simp)
          next d heq2 =>
            split at hr
            next e heq3 => exact absurd hr (by simp)
            next l' heq3 =>
              simp only [Except.ok.injEq] at hr
              subst hr
              have := msgPasses_length hs heq3
              simp only [List.length_cons]
              omega

/-- Inversion of one step of the per-file message loop. -/
theorem collectMessages_cons_ok {user : String} {f : Json} {rest : List Json}
    {sent recv : List Date}
    (h : collectMessages user (f :: rest) = .ok (sent, recv)) :
    ∃ msgs s r ss rs, fileMessages f = .ok msgs ∧
      msgSentPass user msgs = .ok s ∧ msgReceivedPass user msgs = .ok r ∧
      collectMessages user rest = .ok (ss, rs) ∧ sent = s ++ ss ∧ recv = r ++ rs := by
  unfold collectMessages at h
  split at h
  next e heq => exact absurd h (by simp)
  next msgs heq =>
    split at h
    next e heq2 => exact absurd h (by simp)
    next s heq2 =>
      split at h
      next e heq3 => exact absurd h (by simp)
      next r heq3 =>
        split at h
        next e heq4 => exact absurd h (by simp)
        next ss rs heq4 =>
          simp only [Except.ok.injEq, Prod.mk.injEq] at h
          exact ⟨msgs, s, r, ss, rs, heq, heq2, heq3, heq4, h.1.symm, h.2.symm⟩

/-- The whole message loop: sent and received are the concatenations of the
per-file matching and non-matching message dates. -/
theorem collectMessages_eq {user : String} :
    ∀ {files : List Json} {sent recv : List Date},
      collectMessages user files = .ok (sent, recv) →
      sent = ((files.flatMap msgsOf).filter (msgMatches user)).filterMap msgDateD ∧
      recv = ((files.flatMap msgsOf).filter
        (fun m => !msgMatches user m)).filterMap msgDateD
  | [], sent, recv, h => by
      simp only [collectMessages, Except.ok.injEq, Prod.mk.injEq] at h
      simp [h.1.symm, h.2.symm]
  | f :: rest, sent, recv, h => by
      obtain ⟨msgs, s, r, ss, rs, heq, hs, hr, hrest, rfl, rfl⟩ :=
        collectMessages_cons_ok h
      obtain ⟨ihs, ihr⟩ := collectMessages_eq hrest
      have hmsgs : msgsOf f = msgs := by simp [msgsOf, heq]
      constructor
      · simp [List.flatMap_cons, hmsgs, List.filter_append, List.filterMap_append,
          msgSentPass_eq hs, ihs]
      · simp [List.flatMap_cons, hmsgs, List.filter_append, List.filterMap_append,
          msgReceivedPass_eq hr, ihr]

/-- The whole message loop conserves the number of messages. -/
theorem collectMessages_length {user : String} :
    ∀ {files : List Json} {sent recv : List Date},
      collectMessages user files = .ok (sent, recv) →
      sent.length + recv.length = (files.map (fun f => (msgsOf f).length)).sum
  | [], sent, recv, h => by
      simp only [collectMessages, Except.ok.injEq, Prod.mk.injEq] at h
      simp [h.1.symm, h.2.symm]
  | f :: rest, sent, recv, h => by
      obtain ⟨msgs, s, r, ss, rs, heq, hs, hr, hrest, rfl, rfl⟩ :=
        collectMessages_cons_ok h
      have hlen := msgPasses_length hs hr
      have ihl := collectMessages_length hrest
      have hmsgs : msgsOf f = msgs := by simp [msgsOf, heq]
      simp only [List.map_cons, List.sum_cons, List.length_append, hmsgs]
      omega

/-- **C4**: each message is attributed by comparing its space-stripped,
lowercased sender name against the normalized user name: the sent bucket is
exactly the matching messages' dates and the received bucket exactly the
non-matching ones'; when zero sent messages were found, the result is the
single unattributed `message_received_or_sent` bucket holding the would-be
received dates, with no sent key; otherwise both keys are present. -/
theorem c4_message_attribution (user : String) (files : List Json)
    (sent recv : List Date)
    (h : collectMessages user files = .ok (sent, recv)) :
    sent = ((files.flatMap msgsOf).filter (msgMatches user)).filterMap msgDateD ∧
    recv = ((files.flatMap msgsOf).filter
      (fun m => !msgMatches user m)).filterMap msgDateD ∧
    (files ≠ [] → sent = [] →
      get_messages user files = .ok (some (.unattributed recv))) ∧
    (files ≠ [] → sent ≠ [] →
      get_messages user files = .ok (some (.attributed sent recv))) := by
  obtain ⟨hsent, hrecv⟩ := collectMessages_eq h
  refine ⟨hsent, hrecv, ?_, ?_⟩
  · intro hne hempty
    cases files with
    | nil => exact absurd rfl hne
    | cons f rest =>
        subst hempty
        simp [get_messages, h]
  · intro hne hnonempty
    cases files with
    | nil => exact absurd rfl hne
    | cons f rest =>
        have : sent.isEmpty = false := by
          cases sent with
          | nil => exact absurd rfl hnonempty
          | cons x xs => rfl
        simp [get_messages, h, this]

/-- A message file whose messages carry the given sender names (all at epoch
timestamp 0). -/
def mkMsgFile (senders : List String) : Json :=
  .obj [("messages", .arr (senders.map fun n =>
    .obj [("sender_name", .str n), ("timestamp_ms", .num 0)]))]

/-- Witness for C4: a conversation of 10 messages where the user name matches
3 sender fields yields 3 sent / 7 received; one where it matches 0 of 10
yields a single unattributed bucket of 10. -/
theorem c4_message_attribution_witness :
    get_messages "janedoe"
      [mkMsgFile ["Jane Doe", "Bob", "Bob", "Jane Doe", "Bob", "Bob", "Bob",
        "Jane Doe", "Bob", "Bob"]] =
      .ok (some (.attributed
        [⟨1970, 1, 1⟩, ⟨1970, 1, 1⟩, ⟨1970, 1, 1⟩]
        [⟨1970, 1, 1⟩, ⟨1970, 1, 1⟩, ⟨1970, 1, 1⟩, ⟨1970, 1, 1⟩,
         ⟨1970, 1, 1⟩, ⟨1970, 1, 1⟩, ⟨1970, 1, 1⟩])) ∧
    get_messages "janedoe"
      [mkMsgFile ["Bob", "Bob", "Bob", "Bob", "Bob", "Bob", "Bob", "Bob",
        "Bob", "Bob"]] =
      .ok (some (.unattributed
        [⟨1970, 1, 1⟩, ⟨1970, 1, 1⟩, ⟨1970, 1, 1⟩, ⟨1970, 1, 1⟩, ⟨1970, 1, 1⟩,
         ⟨1970, 1, 1⟩, ⟨1970, 1, 1⟩, ⟨1970, 1, 1⟩, ⟨1970, 1, 1⟩, ⟨1970, 1, 1⟩])) :=
  ⟨(c4_message_attribution "janedoe"
      [mkMsgFile ["Jane Doe", "Bob", "Bob", "Jane Doe", "Bob", "Bob", "Bob",
        "Jane Doe", "Bob", "Bob"]]
      [⟨1970, 1, 1⟩, ⟨1970, 1, 1⟩, ⟨1970, 1, 1⟩]
      [⟨1970, 1, 1⟩, ⟨1970, 1, 1⟩, ⟨1970, 1, 1⟩, ⟨1970, 1, 1⟩,
       ⟨1970, 1, 1⟩, ⟨1970, 1, 1⟩, ⟨1970, 1, 1⟩] rfl).2.2.2 (by simp) (by decide),
   (c4_message_attribution "janedoe"
      [mkMsgFile ["Bob", "Bob", "Bob", "Bob", "Bob", "Bob", "Bob", "Bob",
        "Bob", "Bob"]] []
      [⟨1970, 1, 1⟩, ⟨1970, 1, 1⟩, ⟨1970, 1, 1⟩, ⟨1970, 1, 1⟩, ⟨1970, 1, 1⟩,
       ⟨1970, 1, 1⟩, ⟨1970, 1, 1⟩, ⟨1970, 1, 1⟩, ⟨1970, 1, 1⟩, ⟨1970, 1, 1⟩]
      rfl).2.2.1 (by simp) rfl⟩

/-- **C9**: every message of every processed file is counted exactly once:
the sent and received buckets' sizes (or the single unattributed bucket's
size) sum to the total number of messages across the processed files. -/
theorem c9_messages_conservation (user : String) (files : List Json)
    (m : MessagesResult)
    (h : get_messages user files = .ok (some m)) :
    (match m with
     | .attributed s r => s.length + r.length
     | .unattributed l => l.length) =
      (files.map (fun f => (msgsOf f).length)).sum := by
  cases files with
  | nil => exact absurd h (by simp [get_messages])
  | cons f rest =>
      simp only [get_messages] at h
      split at h
      next e heq => exact absurd h (by simp)
      next sent recv heq =>
        have hlen := collectMessages_length heq
        by_cases hempty : sent.isEmpty = true
        · rw [if_pos hempty] at h
          simp only [Except.ok.injEq, Option.some.injEq] at h
          subst h
          have : sent = [] := by simpa using hempty
          subst this
          simpa using hlen
        · rw [if_neg hempty] at h
          simp only [Except.ok.injEq, Option.some.injEq] at h
          subst h
          exact hlen

/-- Witness for C9: 3 sent plus 7 received messages total the 10 messages of
the processed file. -/
theorem c9_messages_conservation_witness :
    (3 + 7 : Nat) =
      ([mkMsgFile ["Jane Doe", "Bob", "Bob", "Jane Doe", "Bob", "Bob", "Bob",
        "Jane Doe", "Bob", "Bob"]].map (fun f => (msgsOf f).length)).sum :=
  c9_messages_conservation "janedoe"
    [mkMsgFile ["Jane Doe", "Bob", "Bob", "Jane Doe", "Bob", "Bob", "Bob",
      "Jane Doe", "Bob", "Bob"]]
    (.attributed
      [⟨1970, 1, 1⟩, ⟨1970, 1, 1⟩, ⟨1970, 1, 1⟩]
      [⟨1970, 1, 1⟩, ⟨1970, 1, 1⟩, ⟨1970, 1, 1⟩, ⟨1970, 1, 1⟩,
       ⟨1970, 1, 1⟩, ⟨1970, 1, 1⟩, ⟨1970, 1, 1⟩]) rfl

/-- **C10**: when two files carry the same recognized filename, the second
file processed overwrites the first one's attribute: the final dates for the
kind are exactly those extracted from the file enumerated last, with the
earlier file's result discarded rather than merged. -/
theorem c10_last_file_wins (f₁ f₂ : ArchiveFile) (attr tstr user : String)
    (res₁ res₂ : Option (List Date))
    (hlook : lookupKey simpleFileTable f₁.name = some (attr, tstr))
    (hname : f₂.name = f₁.name)
    (hm₁ : f₁.inMessages = false) (hm₂ : f₂.inMessages = false)
    (h₁ : get_timestamps f₁.content tstr = .ok res₁)
    (h₂ : get_timestamps f₂.content tstr = .ok res₂) :
    quantify user [f₁, f₂] = .ok ((emptyAttrs.set attr res₁).set attr res₂) ∧
    ((emptyAttrs.set attr res₁).set attr res₂) attr = some res₂ := by
  constructor
  · simp [quantify, processFiles, processFile, fileUpdates, hname, hlook, h₁, h₂,
      applyUpdates, hm₁, hm₂, get_messages]
  · simp [Attrs.set]

/-- Witness for C10: two files both named `comments.json` with one timestamp
each; the final `commented` attribute holds only the second file's date. -/
theorem c10_last_file_wins_witness :
    quantify "User"
      [⟨"comments.json", false, .obj [("a", .arr [.obj [("timestamp", .num 0)]])]⟩,
       ⟨"comments.json", false, .obj [("a", .arr [.obj [("timestamp", .num 86400)]])]⟩] =
      .ok ((emptyAttrs.set "commented" (some [⟨1970, 1, 1⟩])).set "commented"
        (some [⟨1970, 1, 2⟩])) ∧
    ((emptyAttrs.set "commented" (some [⟨1970, 1, 1⟩])).set "commented"
        (some [⟨1970, 1, 2⟩])) "commented" = some (some [⟨1970, 1, 2⟩]) :=
  c10_last_file_wins _ _ "commented" "timestamp" "User"
    (some [⟨1970, 1, 1⟩]) (some [⟨1970, 1, 2⟩]) rfl rfl rfl rfl rfl rfl

/-! ### C1: order (in)dependence of the whole run -/

/-- Reading back the key just assigned. -/
theorem Attrs.set_same (a : Attrs) (k : String) (v : Option (List Date)) :
    (a.set k v) k = some v := by
  simp [Attrs.set]

/-- Reading a different key than the one assigned. -/
theorem Attrs.set_other (a : Attrs) {k k' : String} (h : k' ≠ k)
    (v : Option (List Date)) : (a.set k v) k' = a k' := by
  simp [Attrs.set, h]

/-- A successful dispatch loop is the pure left fold of the per-file steps. -/
theorem processFile_ok {a : Attrs} {f : ArchiveFile} {a' : Attrs}
    (h : processFile a f = .ok a') : a' = applyFileD a f := by
  unfold processFile at h
  split at h
  next e heq => exact absurd h (by simp)
  next us heq =>
    simp only [Except.ok.injEq] at h
    rw [← h]
    simp [applyFileD, fileUpdatesD, heq]

/-- A successful dispatch loop equals the pure left fold over the files. -/
theorem processFiles_ok :
    ∀ {files : List ArchiveFile} {a A : Attrs}, processFiles a files = .ok A →
      A = files.foldl applyFileD a
  | [], a, A, h => by
      simp only [processFiles, Except.ok.injEq] at h
      simp [h.symm]
  | f :: rest, a, A, h => by
      unfold processFiles at h
      split at h
      next e heq => exact absurd h (by simp)
      next a' heq =>
        rw [List.foldl_cons, ← processFile_ok heq]
        exact processFiles_ok h

/-- Keys not assigned by an update list are untouched. -/
theorem applyUpdates_not_mem :
    ∀ (us : List (String × Option (List Date))) (a : Attrs) (k : String),
      k ∉ us.map Prod.fst → applyUpdates a us k = a k
  | [], _, _, _ => rfl
  | (k₀, v₀) :: rest, a, k, h => by
      simp only [List.map_cons, List.mem_cons, not_or] at h
      rw [applyUpdates, applyUpdates_not_mem rest _ k h.2, Attrs.set,
        if_neg h.1]

/-- The value of an assigned key depends only on the update list, not on the
starting attributes. -/
theorem applyUpdates_indep :
    ∀ (us : List (String × Option (List Date))) (a b : Attrs) (k : String),
      k ∈ us.map Prod.fst → applyUpdates a us k = applyUpdates b us k
  | [], _, _, _, h => absurd h (by simp)
  | (k₀, v₀) :: rest, a, b, k, h => by
      by_cases hk : k ∈ rest.map Prod.fst
      · exact applyUpdates_indep rest _ _ k hk
      · have hk0 : k = k₀ := by
          simp only [List.map_cons, List.mem_cons] at h
          exact h.resolve_right hk
        subst hk0
        rw [applyUpdates, applyUpdates, applyUpdates_not_mem rest _ k hk,
          applyUpdates_not_mem rest _ k hk, Attrs.set, Attrs.set, if_pos rfl,
          if_pos rfl]

/-- Update lists over disjoint key sets commute. -/
theorem applyUpdates_comm (us₁ us₂ : List (String × Option (List Date)))
    (a : Attrs)
    (hdisj : ∀ k, k ∈ us₁.map Prod.fst → k ∉ us₂.map Prod.fst) :
    applyUpdates (applyUpdates a us₁) us₂ = applyUpdates (applyUpdates a us₂) us₁ := by
  funext k
  by_cases h₁ : k ∈ us₁.map Prod.fst
  · rw [applyUpdates_not_mem us₂ _ k (hdisj k h₁),
      applyUpdates_indep us₁ (applyUpdates a us₂) a k h₁]
  · by_cases h₂ : k ∈ us₂.map Prod.fst
    · rw [applyUpdates_not_mem us₁ _ k h₁,
        applyUpdates_indep us₂ (applyUpdates a us₁) a k h₂]
    · rw [applyUpdates_not_mem us₂ _ k h₂, applyUpdates_not_mem us₁ _ k h₁,
        applyUpdates_not_mem us₁ _ k h₁, applyUpdates_not_mem us₂ _ k h₂]

/-- Keys of the viewed dispatch are among the three viewed attributes. -/
theorem viewedUpdates_keys :
    ∀ (d : DateDict), ∀ p ∈ viewedUpdates d,
      p.1 ∈ ["viewed_video", "viewed_article", "viewed_marketplace_item"]
  | [], p, h => absurd h (by simp [viewedUpdates])
  | (k, ds) :: rest, p, h => by
      unfold viewedUpdates at h
      simp only [List.mem_append] at h
      rcases h with ((h | h) | h) | h
      · split at h <;> simp_all
      · split at h <;> simp_all
      · split at h <;> simp_all
      · exact viewedUpdates_keys rest p h

/-- Keys of the visited dispatch are among the five visited attributes. -/
theorem visitedUpdates_keys :
    ∀ (d : DateDict), ∀ p ∈ visitedUpdates d,
      p.1 ∈ ["visited_profile", "visited_page", "visited_event_page",
        "visited_group_page", "visited_marketplace"]
  | [], p, h => absurd h (by simp [visitedUpdates])
  | (k, ds) :: rest, p, h => by
      unfold visitedUpdates at h
      simp only [List.mem_append] at h
      rcases h with ((((h | h) | h) | h) | h) | h
      · split at h <;> simp_all
      · split at h <;> simp_all
      · split at h <;> simp_all
      · split at h <;> simp_all
      · split at h <;> simp_all
      · exact visitedUpdates_keys rest p h

/-- Every key a file's branch assigns lies in `writtenKeys`. -/
theorem fileUpdatesD_keys (f : ArchiveFile) :
    ∀ p ∈ fileUpdatesD f, p.1 ∈ writtenKeys f := by
  intro p hp
  unfold fileUpdatesD at hp
  unfold writtenKeys
  cases hfu : fileUpdates f with
  | error e => rw [hfu] at hp; exact absurd hp (by simp)
  | ok us =>
      rw [hfu] at hp
      have hp' : p ∈ us := hp
      clear hp
      unfold fileUpdates at hfu
      split at hfu
      next attr tstr heq =>
        split at hfu
        next => exact absurd hfu (by simp)
        next res heq2 =>
          simp only [Except.ok.injEq] at hfu
          subst hfu
          simp only [List.mem_singleton] at hp'
          simp [hp']
      next heq =>
        by_cases h1 : (f.name == "your_posts_1.json") = true
        · rw [if_pos h1] at hfu ⊢
          split at hfu
          next => exact absurd hfu (by simp)
          next posts heq2 =>
            simp only [Except.ok.injEq] at hfu
            subst hfu
            simp only [List.mem_cons, List.mem_singleton] at hp'
            rcases hp' with rfl | rfl | rfl | (rfl | h)
            · simp
            · simp
            · simp
            · simp
            · exact absurd h (by simp)
        · rw [if_neg h1] at hfu ⊢
          by_cases h2 : (f.name == "viewed.json" || f.name == "recently_viewed.json") = true
          · rw [if_pos h2] at hfu ⊢
            split at hfu
            next => exact absurd hfu (by simp)
            next views heq2 =>
              simp only [Except.ok.injEq] at hfu
              subst hfu
              exact viewedUpdates_keys views p hp'
          · rw [if_neg h2] at hfu ⊢
            by_cases h3 : (f.name == "visited.json" || f.name == "recently_visited.json") = true
            · rw [if_pos h3] at hfu ⊢
              split at hfu
              next => exact absurd hfu (by simp)
              next vis heq2 =>
                simp only [Except.ok.injEq] at hfu
                subst hfu
                exact visitedUpdates_keys vis p hp'
            · rw [if_neg h3] at hfu ⊢
              by_cases h4 : (f.name == "menu_items.json") = true
              · rw [if_pos h4] at hfu ⊢
                split at hfu
                next => exact absurd hfu (by simp)
                next ds heq2 =>
                  simp only [Except.ok.injEq] at hfu
                  subst hfu
                  simp only [List.mem_singleton] at hp'
                  simp [hp']
              · rw [if_neg h4] at hfu
                simp only [Except.ok.injEq] at hfu
                subst hfu
                exact absurd hp' (by simp)

/-- Per-file steps of files with disjoint written-key sets commute. -/
theorem applyFileD_comm (x y : ArchiveFile)
    (hdisj : ∀ k, k ∈ writtenKeys x → k ∉ writtenKeys y) (a : Attrs) :
    applyFileD (applyFileD a x) y = applyFileD (applyFileD a y) x := by
  unfold applyFileD
  apply applyUpdates_comm
  intro k hk₁ hk₂
  obtain ⟨p, hp, rfl⟩ := List.mem_map.mp hk₁
  obtain ⟨q, hq, hqk⟩ := List.mem_map.mp hk₂
  exact hdisj p.1 (fileUpdatesD_keys x p hp)
    (hqk ▸ fileUpdatesD_keys y q hq)

/-- `get_messages` returns Python `None` only for an empty file list. -/
theorem get_messages_ok_none {user : String} {files : List Json}
    (h : get_messages user files = .ok none) : files = [] := by
  cases files with
  | nil => rfl
  | cons f rest =>
      simp only [get_messages] at h
      split at h
      next e heq => exact absurd h (by simp)
      next sent recv heq =>
        by_cases hse : sent.isEmpty = true
        · rw [if_pos hse] at h; exact absurd h (by simp)
        · rw [if_neg hse] at h; exact absurd h (by simp)

/-- Inversion of a successful, non-`None` message phase. -/
theorem get_messages_ok_some {user : String} {files : List Json}
    {m : MessagesResult} (h : get_messages user files = .ok (some m)) :
    ∃ sent recv, collectMessages user files = .ok (sent, recv) ∧
      m = (if sent.isEmpty then .unattributed recv else .attributed sent recv) := by
  cases files with
  | nil => exact absurd h (by simp [get_messages])
  | cons f rest =>
      simp only [get_messages] at h
      split at h
      next e heq => exact absurd h (by simp)
      next sent recv heq =>
        refine ⟨sent, recv, heq, ?_⟩
        by_cases hse : sent.isEmpty = true
        · rw [if_pos hse] at h ⊢
          simp only [Except.ok.injEq, Option.some.injEq] at h
          exact h.symm
        · rw [if_neg hse] at h ⊢
          simp only [Except.ok.injEq, Option.some.injEq] at h
          exact h.symm

/-- Inversion of a successful whole run: the loop attributes and the message
phase's contribution. -/
theorem quantify_ok {user : String} {files : List ArchiveFile} {A : Attrs}
    (h : quantify user files = .ok A) :
    ∃ B, processFiles emptyAttrs files = .ok B ∧
      ∃ r, get_messages (normalizeName user)
          ((files.filter (fun f => f.inMessages &&
            !excludeMessages.contains f.name)).map (·.content)) = .ok r ∧
        A = (match r with
             | none => B
             | some (.attributed sent recv) =>
                 (B.set "message_sent" (some sent)).set "message_received" (some recv)
             | some (.unattributed l) =>
                 B.set "message_received_or_sent" (some l)) := by
  unfold quantify at h
  split at h
  next e heq => exact absurd h (by simp)
  next B heq =>
    refine ⟨B, heq, ?_⟩
    have h' : (match get_messages (normalizeName user)
        ((files.filter (fun f => f.inMessages &&
          !excludeMessages.contains f.name)).map (·.content)) with
      | Except.error e => (Except.error e : Except String Attrs)
      | Except.ok none => Except.ok B
      | Except.ok (some (MessagesResult.attributed sent recv)) =>
          Except.ok ((B.set "message_sent" (some sent)).set "message_received"
            (some recv))
      | Except.ok (some (MessagesResult.unattributed l)) =>
          Except.ok (B.set "message_received_or_sent" (some l))) = Except.ok A := h
    clear h
    split at h'
    next e heq2 => exact absurd h' (by simp)
    next heq2 =>
      simp only [Except.ok.injEq] at h'
      exact ⟨none, heq2, h'.symm⟩
    next sent recv heq2 =>
      simp only [Except.ok.injEq] at h'
      exact ⟨some (.attributed sent recv), heq2, h'.symm⟩
    next l heq2 =>
      simp only [Except.ok.injEq] at h'
      exact ⟨some (.unattributed l), heq2, h'.symm⟩

/-- Permuting the message files permutes each bucket and preserves the
attributed/unattributed shape of the result. -/
theorem messagesResult_perm {user : String} {files₁ files₂ : List Json}
    (hperm : files₁.Perm files₂) {m₁ m₂ : MessagesResult}
    (h₁ : get_messages user files₁ = .ok (some m₁))
    (h₂ : get_messages user files₂ = .ok (some m₂)) :
    (∃ s₁ r₁ s₂ r₂, m₁ = .attributed s₁ r₁ ∧ m₂ = .attributed s₂ r₂ ∧
      s₁.Perm s₂ ∧ r₁.Perm r₂) ∨
    (∃ l₁ l₂, m₁ = .unattributed l₁ ∧ m₂ = .unattributed l₂ ∧ l₁.Perm l₂) := by
  obtain ⟨s₁, r₁, hc₁, rfl⟩ := get_messages_ok_some h₁
  obtain ⟨s₂, r₂, hc₂, rfl⟩ := get_messages_ok_some h₂
  obtain ⟨hs₁, hr₁⟩ := collectMessages_eq hc₁
  obtain ⟨hs₂, hr₂⟩ := collectMessages_eq hc₂
  have hflat : (files₁.flatMap msgsOf).Perm (files₂.flatMap msgsOf) :=
    hperm.flatMap_right msgsOf
  have hsperm : s₁.Perm s₂ := by
    rw [hs₁, hs₂]
    exact (hflat.filter _).filterMap _
  have hrperm : r₁.Perm r₂ := by
    rw [hr₁, hr₂]
    exact (hflat.filter _).filterMap _
  by_cases hse : s₁.isEmpty = true
  · have he₁ : s₁ = [] := by simpa using hse
    subst he₁
    have he₂ : s₂ = [] := List.nil_perm.mp hsperm
    subst he₂
    exact Or.inr ⟨r₁, r₂, rfl, rfl, hrperm⟩
  · have he₂ : s₂.isEmpty = false := by
      cases hs2 : s₂ with
      | nil =>
          subst hs2
          exact absurd (List.perm_nil.mp hsperm) (by simpa using hse)
      | cons x xs => rfl
    rw [if_neg hse, if_neg (by simp [he₂])]
    exact Or.inl ⟨s₁, r₁, s₂, r₂, rfl, rfl, hsperm, hrperm⟩

/-- The hypothesised pairwise relation on files: a key one file writes is
never written by the other. -/
def keysDisjoint (x y : ArchiveFile) : Prop :=
  ∀ k, k ∈ writtenKeys x → k ∉ writtenKeys y

/-- `keysDisjoint` is symmetric. -/
theorem keysDisjoint_symm : Symmetric keysDisjoint := by
  intro x y hxy k hky hkx
  exact hxy k hkx hky

/-- **C1** (amended): for archives in which no two distinct files write the
same activity attribute (no duplicated recognized filename, counting aliases
of the same kind as equal), processing the files in any permutation yields an
identical per-kind-per-date count table: the loop attributes coincide
exactly, and the message buckets coincide as date multisets. -/
theorem c1_order_independence_amended (user : String) (l₁ l₂ : List ArchiveFile)
    (hperm : l₁.Perm l₂)
    (hdisj : l₁.Pairwise keysDisjoint)
    (A₁ A₂ : Attrs)
    (h₁ : quantify user l₁ = .ok A₁) (h₂ : quantify user l₂ = .ok A₂) :
    countTable A₁ = countTable A₂ := by
  obtain ⟨B₁, hB₁, r₁, hg₁, hA₁⟩ := quantify_ok h₁
  obtain ⟨B₂, hB₂, r₂, hg₂, hA₂⟩ := quantify_ok h₂
  have hcomm : ∀ x ∈ l₁, ∀ y ∈ l₁, ∀ z,
      applyFileD (applyFileD z x) y = applyFileD (applyFileD z y) x := by
    intro x hx y hy z
    by_cases hxy : x = y
    · subst hxy; rfl
    · exact applyFileD_comm x y (hdisj.forall keysDisjoint_symm hx hy hxy) z
  have hBB : B₁ = B₂ := by
    rw [processFiles_ok hB₁, processFiles_ok hB₂]
    exact hperm.foldl_eq' hcomm emptyAttrs
  have hmperm :
      ((l₁.filter (fun f => f.inMessages &&
        !excludeMessages.contains f.name)).map (·.content)).Perm
      ((l₂.filter (fun f => f.inMessages &&
        !excludeMessages.contains f.name)).map (·.content)) :=
    (hperm.filter _).map _
  cases r₁ with
  | none =>
      have hnil₁ := get_messages_ok_none hg₁
      rw [hnil₁] at hmperm
      have hnil₂ := List.nil_perm.mp hmperm
      cases r₂ with
      | none => rw [hA₁, hA₂, hBB]
      | some m₂ =>
          rw [hnil₂] at hg₂
          exact absurd hg₂ (by simp [get_messages])
  | some m₁ =>
      cases r₂ with
      | none =>
          have hnil₂ := get_messages_ok_none hg₂
          rw [hnil₂] at hmperm
          have hnil₁ := List.perm_nil.mp hmperm
          rw [hnil₁] at hg₁
          exact absurd hg₁ (by simp [get_messages])
      | some m₂ =>
          rcases messagesResult_perm hmperm hg₁ hg₂ with
            ⟨s₁, r₁', s₂, r₂', rfl, rfl, hsp, hrp⟩ | ⟨u₁, u₂, rfl, rfl, hup⟩
          · rw [hA₁, hA₂, hBB]
            funext k
            simp only [countTable]
            by_cases hk1 : k = "message_received"
            · subst hk1
              rw [Attrs.set_same, Attrs.set_same]
              simp only [Option.map_some']
              rw [show Multiset.ofList r₁' = Multiset.ofList r₂' from
                Multiset.coe_eq_coe.mpr hrp]
            · by_cases hk2 : k = "message_sent"
              · subst hk2
                rw [Attrs.set_other _ hk1, Attrs.set_other _ hk1,
                  Attrs.set_same, Attrs.set_same]
                simp only [Option.map_some']
                rw [show Multiset.ofList s₁ = Multiset.ofList s₂ from
                  Multiset.coe_eq_coe.mpr hsp]
              · rw [Attrs.set_other _ hk1, Attrs.set_other _ hk1,
                  Attrs.set_other _ hk2, Attrs.set_other _ hk2]
          · rw [hA₁, hA₂, hBB]
            funext k
            simp only [countTable]
            by_cases hk : k = "message_received_or_sent"
            · subst hk
              rw [Attrs.set_same, Attrs.set_same]
              simp only [Option.map_some']
              rw [show Multiset.ofList u₁ = Multiset.ofList u₂ from
                Multiset.coe_eq_coe.mpr hup]
            · rw [Attrs.set_other _ hk, Attrs.set_other _ hk]

/-- A comments file used in the C1 instances. -/
def commentsFileA : ArchiveFile :=
  ⟨"comments.json", false, .obj [("a", .arr [.obj [("timestamp", .num 0)]])]⟩

/-- A second file named `comments.json` with a different timestamp. -/
def commentsFileB : ArchiveFile :=
  ⟨"comments.json", false, .obj [("a", .arr [.obj [("timestamp", .num 86400)]])]⟩

/-- A pokes file used in the C1 witness. -/
def pokesFile : ArchiveFile :=
  ⟨"pokes.json", false, .obj [("a", .arr [.obj [("timestamp", .num 86400)]])]⟩

/-- **C1** (counterexample): two files that both carry the recognized name
`comments.json` make the final count table depend on enumeration order: under
one order the `commented` kind holds the day of the second file, under the
swapped (permuted) order the day of the first, and the two multisets differ.
So the claim "any permutation yields an identical table" fails on this
archive. -/
theorem c1_counterexample :
    [commentsFileA, commentsFileB].Perm [commentsFileB, commentsFileA] ∧
    Except.map (fun a => countTable a "commented")
      (quantify "User" [commentsFileA, commentsFileB]) =
      .ok (some (some (([⟨1970, 1, 2⟩] : List Date) : Multiset Date))) ∧
    Except.map (fun a => countTable a "commented")
      (quantify "User" [commentsFileB, commentsFileA]) =
      .ok (some (some (([⟨1970, 1, 1⟩] : List Date) : Multiset Date))) ∧
    (([⟨1970, 1, 2⟩] : List Date) : Multiset Date) ≠
      (([⟨1970, 1, 1⟩] : List Date) : Multiset Date) := by
  refine ⟨List.Perm.swap commentsFileB commentsFileA [], rfl, rfl, ?_⟩
  rw [Ne, Multiset.coe_eq_coe]
  intro hco
  have := List.perm_singleton.mp hco
  simp at this

/-- Witness for the amended C1: a comments file and a pokes file processed in
both orders produce the same count table. -/
theorem c1_order_independence_amended_witness :
    countTable ((emptyAttrs.set "commented" (some [⟨1970, 1, 1⟩])).set "poked"
      (some [⟨1970, 1, 2⟩])) =
    countTable ((emptyAttrs.set "poked" (some [⟨1970, 1, 2⟩])).set "commented"
      (some [⟨1970, 1, 1⟩])) :=
  c1_order_independence_amended "User" [commentsFileA, pokesFile]
    [pokesFile, commentsFileA] (List.Perm.swap pokesFile commentsFileA [])
    (by
      constructor
      · intro y hy
        have hy' : y = pokesFile := by simpa using hy
        subst hy'
        intro k hk hk'
        have hkc : k = "commented" := by
          simpa [commentsFileA, writtenKeys, lookupKey, simpleFileTable] using hk
        subst hkc
        simp [pokesFile, writtenKeys, lookupKey, simpleFileTable] at hk'
      · constructor
        · intro y hy
          exact absurd hy (by simp)
        · exact List.Pairwise.nil)
    _ _ rfl rfl

end FBQ
